import Mathlib

/-!
Verification of the reachy-video-chat companion core against its
natural-language specification.  The Python modules under
`src/reachy_mini_companion/` are shallowly embedded as executable Lean
definitions: the lifecycle state machine (`state_machine.py`), the Gemini
live-session reconnect loop (`conversation/gemini_session.py`), the
RMS-based silence detector (`wake/vad.py`) and the tail of the ACTIVE
phase handler (`main.py`).  Times and backoff delays are rationals,
byte buffers are lists of naturals, exceptions are `Except` values.
-/

namespace Companion

/-! ## State machine (`state_machine.py`) -/

/-- Lifecycle states of the companion app (`class State(Enum)`). -/
inductive State where
  | SETUP
  | SLEEPING
  | WAKING
  | ACTIVE
  | COOLDOWN
deriving DecidableEq, Fintype, Repr

/-- Transition events (`class Event(Enum)`). -/
inductive Event where
  | SETUP_COMPLETE
  | WAKE_WORD_DETECTED
  | SESSION_READY
  | SILENCE_TIMEOUT
  | MAX_DURATION
  | COOLDOWN_COMPLETE
  | ERROR
deriving DecidableEq, Fintype, Repr

/-- Printable state name, mirroring `State.name` used in the error message. -/
def State.pyname : State → String
  | .SETUP => "SETUP"
  | .SLEEPING => "SLEEPING"
  | .WAKING => "WAKING"
  | .ACTIVE => "ACTIVE"
  | .COOLDOWN => "COOLDOWN"

/-- Printable event name, mirroring `Event.name` used in the error message. -/
def Event.pyname : Event → String
  | .SETUP_COMPLETE => "SETUP_COMPLETE"
  | .WAKE_WORD_DETECTED => "WAKE_WORD_DETECTED"
  | .SESSION_READY => "SESSION_READY"
  | .SILENCE_TIMEOUT => "SILENCE_TIMEOUT"
  | .MAX_DURATION => "MAX_DURATION"
  | .COOLDOWN_COMPLETE => "COOLDOWN_COMPLETE"
  | .ERROR => "ERROR"

/-- The transition dictionary `TRANSITIONS: dict[tuple[State, Event], State]`,
embedded as an association list with the same nine entries in source order. -/
def TRANSITIONS : List ((State × Event) × State) :=
  [ ((.SETUP, .SETUP_COMPLETE), .SLEEPING),
    ((.SLEEPING, .WAKE_WORD_DETECTED), .WAKING),
    ((.WAKING, .SESSION_READY), .ACTIVE),
    ((.WAKING, .ERROR), .SLEEPING),
    ((.ACTIVE, .SILENCE_TIMEOUT), .COOLDOWN),
    ((.ACTIVE, .MAX_DURATION), .COOLDOWN),
    ((.ACTIVE, .ERROR), .COOLDOWN),
    ((.COOLDOWN, .COOLDOWN_COMPLETE), .SLEEPING),
    ((.COOLDOWN, .ERROR), .SLEEPING) ]

/-- The state machine object: current state and the monotonic time at which
it was entered (`self._state`, `self._entered_at`). -/
structure StateMachine where
  state : State
  entered_at : ℚ
deriving DecidableEq, Repr

/-- Seconds spent in the current state (`time_in_state` property), with the
current monotonic clock passed explicitly. -/
def StateMachine.time_in_state (sm : StateMachine) (now : ℚ) : ℚ :=
  now - sm.entered_at

/-- One invocation of the registered transition callback, with the
`(old_state, event, new_state)` arguments it receives. -/
abbrev CallbackCall := State × Event × State

/-- `StateMachine.send_event`: look the `(state, event)` key up in
`TRANSITIONS`; if absent, raise `ValueError` before any mutation (the
machine is returned unchanged and the callback log is empty); otherwise
update the state and entry timestamp, then invoke the callback.  The result
is `(returned value or exception, machine afterwards, callback calls)`. -/
def StateMachine.send_event (sm : StateMachine) (e : Event) (now : ℚ) :
    Except String State × StateMachine × List CallbackCall :=
  match TRANSITIONS.lookup (sm.state, e) with
  | none =>
      (.error ("Invalid transition: " ++ sm.state.pyname ++ " + " ++ e.pyname),
       sm, [])
  | some new_state =>
      (.ok new_state, { state := new_state, entered_at := now },
       [(sm.state, e, new_state)])

end Companion

namespace Companion

/-! ## Gemini live session (`conversation/gemini_session.py`) -/

/-- A byte buffer (PCM audio chunk, JPEG frame, ...). -/
abbrev Bytes := List Nat

/-- A Python exception as seen by the reconnect loop: whether it is a
`ValueError`/`TypeError`, and its message (`str(e)`). -/
structure GError where
  value_or_type_error : Bool
  msg : String
deriving DecidableEq, Repr

/-- Check whether `sub` occurs as a contiguous substring of `s`
(character-list form of Python's `kw in error_str`). -/
def charsContain (sub : List Char) : List Char → Bool
  | [] => sub.isEmpty
  | c :: t => sub.isPrefixOf (c :: t) || charsContain sub t

/-- Python `kw in s` on strings. -/
def strContains (s kw : String) : Bool :=
  charsContain kw.data s.data

/-- Python `s.lower()` (ASCII case folding, which covers every keyword the
session compares against). -/
def strToLower (s : String) : String :=
  ⟨s.data.map Char.toLower⟩

/-- The keyword list of `GeminiSession._is_permanent_error`. -/
def permanentKeywords : List String :=
  ["api key", "api_key", "unauthenticated", "permission denied",
   "not supported", "403", "401", "quota"]

namespace GeminiSession

/-- `GeminiSession._is_permanent_error`: a `ValueError`/`TypeError`, or a
message whose lowercase form contains one of the auth/quota keywords, is
permanent (not retried). -/
def is_permanent_error (e : GError) : Bool :=
  e.value_or_type_error ||
    permanentKeywords.any (fun kw => strContains (strToLower e.msg) kw)

end GeminiSession

/-- One function call in a `tool_call` message: name and argument map. -/
abbrev FuncCall := String × List (String × String)

/-- The `on_tool_call` callback: returns a result string or raises
(an `Except.error` models the raised exception's message). -/
abbrev ToolCB := String → List (String × String) → Except String String

/-- One inbound message from the live transport, as dispatched by
`GeminiSession._receiver_loop`: inline audio data, tool calls, transcription
fragments, a `go_away` notice, or a session-resumption update carrying
`(new_handle, resumable)`. -/
inductive RecvMsg where
  | audioChunk (data : Bytes)
  | toolCall (calls : List FuncCall)
  | transcriptMsg (speaker : String) (text : String) (final : Bool)
  | goAwayMsg
  | resumptionUpdate (new_handle : String) (resumable : Bool)
deriving DecidableEq, Repr

/-- Receiver-visible session state: the playback queue contents, the tool
responses sent back, the `_go_away_received` flag and the
`_resumption_handle`. -/
structure RecvState where
  playback : List Bytes
  tool_responses : List (String × String)
  go_away_received : Bool
  resumption_handle : Option String
deriving DecidableEq, Repr

/-- Fresh receiver state at connection start: `_go_away_received` is reset
to `False` at the top of each `run` iteration, the resumption handle is
carried over. -/
def initRecvState (handle : Option String) : RecvState :=
  ⟨[], [], false, handle⟩

namespace GeminiSession

/-- `GeminiSession._handle_tool_calls`: for each function call, start from
`result = ""`; if a callback is registered, call it and on an exception `e`
replace the result with `f"Error: {e}"`; collect `(name, str(result))`
responses in call order. -/
def handle_tool_calls (cb : Option ToolCB) (calls : List FuncCall) :
    List (String × String) :=
  calls.map (fun fc =>
    let result : String :=
      match cb with
      | none => ""
      | some f =>
          match f fc.1 fc.2 with
          | .ok r => r
          | .error e => "Error: " ++ e
    (fc.1, result))

/-- One message of `GeminiSession._receiver_loop`: append non-empty inline
audio to the playback queue, handle non-empty tool-call lists, ignore
transcription state-wise (the callback is external), set
`_go_away_received` on a go-away notice, and record `new_handle` as the
resumption handle when it is non-empty and marked resumable. -/
def processMsg (cb : Option ToolCB) (st : RecvState) : RecvMsg → RecvState
  | .audioChunk data =>
      if data.isEmpty then st else { st with playback := st.playback ++ [data] }
  | .toolCall calls =>
      if calls.isEmpty then st
      else { st with tool_responses := st.tool_responses ++ handle_tool_calls cb calls }
  | .transcriptMsg _ _ _ => st
  | .goAwayMsg => { st with go_away_received := true }
  | .resumptionUpdate new_handle resumable =>
      if new_handle ≠ "" && resumable then
        { st with resumption_handle := some new_handle }
      else st

/-- The receiver loop over a finite inbound message sequence. -/
def receiverLoop (cb : Option ToolCB) (st : RecvState) (msgs : List RecvMsg) :
    RecvState :=
  msgs.foldl (processMsg cb) st

end GeminiSession

/-- What one iteration of the `run` retry loop encounters:
`preStop` — the stop event is already set at the top of the loop;
`connectFail e` — `connect` (or session setup) raises `e`;
`session msgs stopAfter` — the connection succeeds, the receiver loop
consumes `msgs`, and the context manager then exits cleanly with the stop
event in state `stopAfter`. -/
inductive AttemptOutcome where
  | preStop
  | connectFail (e : GError)
  | session (msgs : List RecvMsg) (stopAfter : Bool)
deriving DecidableEq, Repr

/-- How `run` ends: falling out of the retry loop (`ended`) or re-raising a
permanent error (`raised`). -/
inductive RunResult where
  | ended
  | raised (e : GError)
deriving DecidableEq, Repr

/-- Observable trace of one `run` invocation: the resumption handle put in
each `LiveConnectConfig` built (one per connection attempt, in order), the
backoff delays slept, and how the call ended. -/
structure RunTrace where
  configs : List (Option String)
  sleeps : List ℚ
  result : RunResult
deriving DecidableEq, Repr

namespace GeminiSession

/-- The body of `GeminiSession.run`'s `for attempt in range(max_retries)`
loop.  `fuel` is the number of remaining iterations, `handle` the current
`_resumption_handle`, `backoff` the current backoff value.  Per iteration:
break on the stop event; otherwise build the config (which carries `handle`
when set); on a connect exception re-raise if permanent, else sleep
`backoff` and double it (capped at 30); on a successful connection reset
`backoff` to 1, run the receiver, and afterwards break if stop was
requested, continue immediately after a go-away, and otherwise sleep the
(reset) backoff before retrying. -/
def runAux (cb : Option ToolCB) (fuel : Nat) (handle : Option String)
    (backoff : ℚ) (outcomes : List AttemptOutcome) : RunTrace :=
  match fuel, outcomes with
  | 0, _ => ⟨[], [], .ended⟩
  | _ + 1, [] => ⟨[], [], .ended⟩
  | n + 1, o :: rest =>
    match o with
    | .preStop => ⟨[], [], .ended⟩
    | .connectFail e =>
        if is_permanent_error e then ⟨[handle], [], .raised e⟩
        else
          let t := runAux cb n handle (min (backoff * 2) 30) rest
          ⟨handle :: t.configs, backoff :: t.sleeps, t.result⟩
    | .session msgs stopAfter =>
        let st := receiverLoop cb (initRecvState handle) msgs
        if stopAfter then ⟨[handle], [], .ended⟩
        else if st.go_away_received then
          let t := runAux cb n st.resumption_handle 1 rest
          ⟨handle :: t.configs, t.sleeps, t.result⟩
        else
          let t := runAux cb n st.resumption_handle (min (1 * 2) 30) rest
          ⟨handle :: t.configs, 1 :: t.sleeps, t.result⟩

/-- `GeminiSession.run` for a fresh session: `max_retries = 10`,
`backoff = 1.0`, and `_resumption_handle = None` from `__init__`. -/
def run (cb : Option ToolCB) (outcomes : List AttemptOutcome) : RunTrace :=
  runAux cb 10 none 1 outcomes

end GeminiSession

/-- A sample transient error: not a `ValueError`/`TypeError` and free of
every permanent keyword. -/
def sampleTransientError : GError := ⟨false, "connection reset by peer"⟩

/-! ## Silence detector (`wake/vad.py`) -/

/-- An audio block together with its dtype, the two encodings
`SilenceDetector.process` distinguishes: int16 samples, or float32 samples
in `[-1, 1]` scaled by 32767. -/
inductive AudioBlock where
  | int16 (samples : List ℤ)
  | float32 (samples : List ℚ)
deriving DecidableEq, Repr

/-- Mean of the squares of a sample list (`np.mean(x ** 2)`). -/
def meanSq (xs : List ℚ) : ℚ :=
  (xs.map fun x => x * x).sum / (xs.length : ℚ)

/-- The square of the RMS value the code computes: the int16 branch is
`sqrt(mean(x²))` and the float32 branch `sqrt(mean(x²)) * 32767`, so their
squares are `mean(x²)` and `mean(x²) * 32767²`.  Working with the square
keeps the comparison against the threshold exact and decidable; the claim
theorem proves it agrees with the real-valued square root comparison. -/
def rmsSqVal : AudioBlock → ℚ
  | .int16 s => meanSq (s.map fun i => (i : ℚ))
  | .float32 s => meanSq s * 32767 ^ 2

/-- The comparison `rms >= rms_threshold` of `SilenceDetector.process`,
in squared form (equivalent because the RMS is non-negative). -/
def rmsAtLeast (a : AudioBlock) (thr : ℚ) : Bool :=
  decide (thr ≤ 0) || decide (thr ^ 2 ≤ rmsSqVal a)

/-- The silence detector (`wake/vad.py`): silence timeout, RMS threshold,
and the optional last-speech timestamp (`self._last_speech_time`). -/
structure SilenceDetector where
  timeout_sec : ℚ
  rms_threshold : ℚ
  last_speech_time : Option ℚ
deriving DecidableEq, Repr

/-- `SilenceDetector.process(audio, current_time)`: initialize the
last-speech time to `now` on first use; if the block's RMS is at or above
the threshold, record `now` as last-speech and return `False`; otherwise
return whether the elapsed silence reached `timeout_sec`.  Returns the
flag and the updated detector. -/
def SilenceDetector.process (sd : SilenceDetector) (a : AudioBlock) (now : ℚ) :
    Bool × SilenceDetector :=
  let last := match sd.last_speech_time with
    | none => now
    | some t => t
  if rmsAtLeast a sd.rms_threshold then
    (false, { sd with last_speech_time := some now })
  else if sd.timeout_sec ≤ now - last then
    (true, { sd with last_speech_time := some last })
  else
    (false, { sd with last_speech_time := some last })

/-- `SilenceDetector.reset`: clear the last-speech time so the next
`process` call re-initializes it. -/
def SilenceDetector.reset (sd : SilenceDetector) : SilenceDetector :=
  { sd with last_speech_time := none }

/-! ## Tail of the ACTIVE phase handler (`main.py`) -/

/-- Observable outcome of the end of `CompanionApp._handle_active`: whether
`end_session` was called on the cost tracker, which event (if any) was sent
to the state machine, and the machine afterwards. -/
structure ActiveTailResult where
  cost_ended : Bool
  sent : Option Event
  sm : StateMachine
deriving DecidableEq, Repr

/-- The code that runs after the ACTIVE-phase task group ends: always call
`self._cost_tracker.end_session()`; return early if shutdown was requested;
otherwise compute the elapsed time and send `MAX_DURATION` when it reached
`max_duration_sec`, else `SILENCE_TIMEOUT`, swallowing an invalid-transition
`ValueError`. -/
def handleActiveTail (shutdown : Bool) (now session_start max_duration_sec : ℚ)
    (sm : StateMachine) : ActiveTailResult :=
  let cost_ended := true
  if shutdown then ⟨cost_ended, none, sm⟩
  else
    let elapsed := now - session_start
    let ev : Event :=
      if max_duration_sec ≤ elapsed then .MAX_DURATION else .SILENCE_TIMEOUT
    let r := sm.send_event ev now
    match r.1 with
    | .ok _ => ⟨cost_ended, some ev, r.2.1⟩
    | .error _ => ⟨cost_ended, some ev, sm⟩

/-! ## Outbound send queue and inbound playback order -/

/-- A pending outbound item, the `("audio", bytes)` / `("image", bytes)`
tuples put on `self._send_queue`. -/
inductive SendItem where
  | audioItem (data : Bytes)
  | imageItem (data : Bytes)
deriving DecidableEq, Repr

/-- `GeminiSession.send_audio`: append an audio item to the outbound
queue. -/
def send_audio (q : List SendItem) (audio_bytes : Bytes) : List SendItem :=
  q ++ [.audioItem audio_bytes]

/-- `GeminiSession.send_image`: append an image item to the outbound
queue. -/
def send_image (q : List SendItem) (jpeg_bytes : Bytes) : List SendItem :=
  q ++ [.imageItem jpeg_bytes]

/-- One message forwarded to the transport by the sender loop:
`send_realtime_input(audio=Blob(..., "audio/pcm"))` or
`send_realtime_input(media=Blob(..., "image/jpeg"))`. -/
inductive TransportMsg where
  | realtimeAudio (data : Bytes)
  | realtimeImage (data : Bytes)
deriving DecidableEq, Repr

/-- `GeminiSession._sender_loop` draining the outbound queue: take the next
item and forward it by kind, repeatedly. -/
def senderLoop : List SendItem → List TransportMsg
  | [] => []
  | .audioItem d :: rest => .realtimeAudio d :: senderLoop rest
  | .imageItem d :: rest => .realtimeImage d :: senderLoop rest

/-- `GeminiSession.get_playback_audio`: take the next chunk from the front
of the playback queue (with the remaining queue), if any. -/
def get_playback_audio (q : List Bytes) : Option (Bytes × List Bytes) :=
  match q with
  | [] => none
  | c :: rest => some (c, rest)

/-- Repeatedly taking from the front of the playback queue until empty. -/
def drainAll : List Bytes → List Bytes
  | [] => []
  | c :: rest => c :: drainAll rest

/-- The non-empty inline audio payloads of an inbound message sequence, in
arrival order — exactly the chunks the receiver loop appends. -/
def playbackChunks : List RecvMsg → List Bytes
  | [] => []
  | .audioChunk d :: rest =>
      if d.isEmpty then playbackChunks rest else d :: playbackChunks rest
  | .toolCall _ :: rest => playbackChunks rest
  | .transcriptMsg _ _ _ :: rest => playbackChunks rest
  | .goAwayMsg :: rest => playbackChunks rest
  | .resumptionUpdate _ _ :: rest => playbackChunks rest

/-! ## Claim theorems for the state machine -/

/-- C1.  For every `(phase, event)` pair listed in `TRANSITIONS`,
`send_event` yields exactly the specified next phase (both as return value
and as the machine's new state); for every pair not in the table,
`send_event` fails with `ValueError` and leaves the machine — in particular
its phase — unchanged.  The first conjunct identifies table membership with
lookup success, so the other two range over exactly the listed / unlisted
pairs. -/
theorem C1_send_event_follows_transition_table :
    (∀ s e ns, ((s, e), ns) ∈ TRANSITIONS ↔ TRANSITIONS.lookup (s, e) = some ns) ∧
    (∀ (sm : StateMachine) (e : Event) (now : ℚ) (ns : State),
      TRANSITIONS.lookup (sm.state, e) = some ns →
        (sm.send_event e now).1 = .ok ns ∧ (sm.send_event e now).2.1.state = ns) ∧
    (∀ (sm : StateMachine) (e : Event) (now : ℚ),
      TRANSITIONS.lookup (sm.state, e) = none →
        (∃ msg, (sm.send_event e now).1 = .error msg) ∧
        (sm.send_event e now).2.1 = sm) := by
  refine ⟨by decide, ?_, ?_⟩
  · intro sm e now ns h
    simp [StateMachine.send_event, h]
  · intro sm e now h
    simp [StateMachine.send_event, h]

/-- Closed witness for C1: a listed pair transitions as specified, and an
unlisted pair fails leaving the machine unchanged. -/
theorem C1_witness :
    ((StateMachine.mk .SETUP 0).send_event .SETUP_COMPLETE 5).1 = .ok .SLEEPING ∧
    ((StateMachine.mk .ACTIVE 2).send_event .SETUP_COMPLETE 7).2.1
      = StateMachine.mk .ACTIVE 2 := by
  constructor
  · exact (C1_send_event_follows_transition_table.2.1
      (StateMachine.mk .SETUP 0) .SETUP_COMPLETE 5 .SLEEPING (by decide)).1
  · exact (C1_send_event_follows_transition_table.2.2
      (StateMachine.mk .ACTIVE 2) .SETUP_COMPLETE 7 (by decide)).2

/-- C10.  An event invalid for the current phase raises before any
mutation: the whole machine (state and phase-entry timestamp) is unchanged,
so `time_in_state` keeps measuring from the prior valid transition at every
later clock reading, and the transition callback is never invoked. -/
theorem C10_invalid_event_mutates_nothing :
    ∀ (sm : StateMachine) (e : Event) (now : ℚ),
      TRANSITIONS.lookup (sm.state, e) = none →
        (sm.send_event e now).2.1 = sm ∧
        (∀ t : ℚ, ((sm.send_event e now).2.1).time_in_state t
          = sm.time_in_state t) ∧
        (sm.send_event e now).2.2 = [] := by
  intro sm e now h
  simp [StateMachine.send_event, h]

/-- Closed witness for C10 at a concrete invalid pair. -/
theorem C10_witness :
    ((StateMachine.mk .SLEEPING 3).send_event .ERROR 9).2.1
        = StateMachine.mk .SLEEPING 3 ∧
    ((StateMachine.mk .SLEEPING 3).send_event .ERROR 9).2.2 = [] := by
  have h := C10_invalid_event_mutates_nothing
    (StateMachine.mk .SLEEPING 3) .ERROR 9 (by decide)
  exact ⟨h.1, h.2.2⟩

/-! ## Claim theorems for the reconnect loop -/

/-- The sample transient error is not classified as permanent. -/
lemma sampleTransientError_not_permanent :
    GeminiSession.is_permanent_error sampleTransientError = false := by
  decide

/-- Index 1 of a cons cell is the head of the tail. -/
lemma cons_get_one {α : Type} (a : α) (l : List α) : (a :: l).get? 1 = l.head? := by
  cases l <;> simp [List.get?]

/-- Step equation of `runAux` for a clean session end after a go-away:
no sleep, immediate retry with backoff 1 and the receiver's handle. -/
lemma runAux_session_goAway (cb : Option ToolCB) (n : ℕ) (h : Option String)
    (b : ℚ) (msgs : List RecvMsg) (rest : List AttemptOutcome)
    (hga : (GeminiSession.receiverLoop cb (initRecvState h) msgs).go_away_received = true) :
    GeminiSession.runAux cb (n + 1) h b (.session msgs false :: rest)
      = ⟨h :: (GeminiSession.runAux cb n
            (GeminiSession.receiverLoop cb (initRecvState h) msgs).resumption_handle
            1 rest).configs,
         (GeminiSession.runAux cb n
            (GeminiSession.receiverLoop cb (initRecvState h) msgs).resumption_handle
            1 rest).sleeps,
         (GeminiSession.runAux cb n
            (GeminiSession.receiverLoop cb (initRecvState h) msgs).resumption_handle
            1 rest).result⟩ := by
  simp [GeminiSession.runAux, hga]

/-- Step equation of `runAux` for a clean session end without go-away and
without stop: sleep the reset backoff 1, retry with doubled backoff. -/
lemma runAux_session_normal (cb : Option ToolCB) (n : ℕ) (h : Option String)
    (b : ℚ) (msgs : List RecvMsg) (rest : List AttemptOutcome)
    (hga : (GeminiSession.receiverLoop cb (initRecvState h) msgs).go_away_received = false) :
    GeminiSession.runAux cb (n + 1) h b (.session msgs false :: rest)
      = ⟨h :: (GeminiSession.runAux cb n
            (GeminiSession.receiverLoop cb (initRecvState h) msgs).resumption_handle
            (min (1 * 2) 30) rest).configs,
         1 :: (GeminiSession.runAux cb n
            (GeminiSession.receiverLoop cb (initRecvState h) msgs).resumption_handle
            (min (1 * 2) 30) rest).sleeps,
         (GeminiSession.runAux cb n
            (GeminiSession.receiverLoop cb (initRecvState h) msgs).resumption_handle
            (min (1 * 2) 30) rest).result⟩ := by
  simp [GeminiSession.runAux, hga]

/-- Whenever an attempt is actually made (the stop event is not already
set), the config built for it carries the entry resumption handle. -/
lemma runAux_configs_head (cb : Option ToolCB) (n : ℕ) (h : Option String)
    (b : ℚ) (o : AttemptOutcome) (rest : List AttemptOutcome)
    (ho : o ≠ .preStop) :
    ((GeminiSession.runAux cb (n + 1) h b (o :: rest)).configs).head? = some h := by
  cases o with
  | preStop => exact absurd rfl ho
  | connectFail e =>
      by_cases hp : GeminiSession.is_permanent_error e = true <;>
        simp [GeminiSession.runAux, hp]
  | session msgs2 stopAfter2 =>
      cases stopAfter2 <;>
        by_cases hg : (GeminiSession.receiverLoop cb (initRecvState h) msgs2).go_away_received = true <;>
          simp [GeminiSession.runAux, hg]

/-- C2.  Ten consecutive transient connection failures produce exactly the
backoff delays `1, 2, 4, 8, 16, 30, 30, 30, 30, 30` over exactly 10
connection attempts, and after any successful connection (whose clean end
is neither a stop nor a go-away) the next backoff delay is 1 again,
whatever the backoff had grown to. -/
theorem C2_backoff_sequence :
    ((GeminiSession.run none
        (List.replicate 10 (.connectFail sampleTransientError))).sleeps
      = [1, 2, 4, 8, 16, 30, 30, 30, 30, 30]) ∧
    ((GeminiSession.run none
        (List.replicate 10 (.connectFail sampleTransientError))).configs.length = 10) ∧
    (∀ (cb : Option ToolCB) (n : ℕ) (h : Option String) (b : ℚ)
        (msgs : List RecvMsg) (rest : List AttemptOutcome),
      (GeminiSession.receiverLoop cb (initRecvState h) msgs).go_away_received = false →
        ((GeminiSession.runAux cb (n + 1) h b
            (.session msgs false :: rest)).sleeps).head? = some 1) := by
  refine ⟨?_, ?_, ?_⟩
  · simp [GeminiSession.run, GeminiSession.runAux, List.replicate,
      sampleTransientError_not_permanent]
    norm_num
  · simp [GeminiSession.run, GeminiSession.runAux, List.replicate,
      sampleTransientError_not_permanent]
  · intro cb n h b msgs rest hga
    simp [GeminiSession.runAux, hga]

/-- Closed witness for C2: a successful connection entered with backoff 7
still waits only 1 unit before the next reconnect. -/
theorem C2_witness :
    ((GeminiSession.runAux none 1 none 7
        (.session [] false :: [])).sleeps).head? = some 1 :=
  C2_backoff_sequence.2.2 none 0 none 7 [] [] (by decide)

/-- C3.  A permanent connection error ends `run` at once by re-raising it
(one config built, no sleeps, no further attempts); a transient error is
retried (the trace continues with the remaining attempts after sleeping the
current backoff); running out of fuel (the 10-attempt cap) ends `run`
normally, as does the concrete all-transient 10-failure run. -/
theorem C3_error_classification_and_retry :
    (∀ (cb : Option ToolCB) (n : ℕ) (h : Option String) (b : ℚ) (e : GError)
        (rest : List AttemptOutcome),
      GeminiSession.is_permanent_error e = true →
        GeminiSession.runAux cb (n + 1) h b (.connectFail e :: rest)
          = ⟨[h], [], .raised e⟩) ∧
    (∀ (cb : Option ToolCB) (n : ℕ) (h : Option String) (b : ℚ) (e : GError)
        (rest : List AttemptOutcome),
      GeminiSession.is_permanent_error e = false →
        GeminiSession.runAux cb (n + 1) h b (.connectFail e :: rest)
          = ⟨h :: (GeminiSession.runAux cb n h (min (b * 2) 30) rest).configs,
             b :: (GeminiSession.runAux cb n h (min (b * 2) 30) rest).sleeps,
             (GeminiSession.runAux cb n h (min (b * 2) 30) rest).result⟩) ∧
    (∀ (cb : Option ToolCB) (h : Option String) (b : ℚ)
        (outcomes : List AttemptOutcome),
      GeminiSession.runAux cb 0 h b outcomes = ⟨[], [], .ended⟩) ∧
    ((GeminiSession.run none
        (List.replicate 10 (.connectFail sampleTransientError))).result = .ended) := by
  refine ⟨?_, ?_, ?_, ?_⟩
  · intro cb n h b e rest hperm
    simp [GeminiSession.runAux, hperm]
  · intro cb n h b e rest htrans
    simp [GeminiSession.runAux, htrans]
  · intro cb h b outcomes
    simp [GeminiSession.runAux]
  · simp [GeminiSession.run, GeminiSession.runAux, List.replicate,
      sampleTransientError_not_permanent]

/-- Closed witness for C3: a `ValueError`-style error is raised without
retry; a transient error is retried and, with no further outcome, the run
ends normally after sleeping once. -/
theorem C3_witness :
    GeminiSession.runAux none 3 none 1 [.connectFail ⟨true, "bad argument"⟩]
      = ⟨[none], [], .raised ⟨true, "bad argument"⟩⟩ ∧
    GeminiSession.runAux none 3 none 1 [.connectFail sampleTransientError]
      = ⟨[none], [1], .ended⟩ := by
  constructor
  · exact C3_error_classification_and_retry.1 none 2 none 1
      ⟨true, "bad argument"⟩ [] (by decide)
  · have h := C3_error_classification_and_retry.2.1 none 2 none 1
      sampleTransientError [] (by decide)
    simpa [GeminiSession.runAux] using h

/-- C4.  The very first connection of a fresh `run` is configured with no
resumption token; the configuration built for the connection attempt
following a completed connection carries exactly the resumption handle the
receiver ended with; and the receiver records a token from a
resumption-update message precisely when the handle is non-empty and the
server marks it resumable. -/
theorem C4_resumption_token_flow :
    (∀ (cb : Option ToolCB) (o : AttemptOutcome) (rest : List AttemptOutcome),
      o ≠ .preStop →
        ((GeminiSession.run cb (o :: rest)).configs).head? = some none) ∧
    (∀ (cb : Option ToolCB) (n : ℕ) (h : Option String) (b : ℚ)
        (msgs : List RecvMsg) (o2 : AttemptOutcome) (rest : List AttemptOutcome),
      o2 ≠ .preStop →
        ((GeminiSession.runAux cb (n + 2) h b
            (.session msgs false :: o2 :: rest)).configs).get? 1
          = some ((GeminiSession.receiverLoop cb (initRecvState h) msgs).resumption_handle)) ∧
    (∀ (cb : Option ToolCB) (st : RecvState) (tok : String),
      tok ≠ "" →
        (GeminiSession.receiverLoop cb st [.resumptionUpdate tok true]).resumption_handle
          = some tok) ∧
    (∀ (cb : Option ToolCB) (st : RecvState) (tok : String),
      (GeminiSession.receiverLoop cb st [.resumptionUpdate tok false]).resumption_handle
        = st.resumption_handle) := by
  refine ⟨?_, ?_, ?_, ?_⟩
  · intro cb o rest ho
    exact runAux_configs_head cb 9 none 1 o rest ho
  · intro cb n h b msgs o2 rest ho2
    by_cases hg : (GeminiSession.receiverLoop cb (initRecvState h) msgs).go_away_received = true
    · rw [runAux_session_goAway cb (n + 1) h b msgs (o2 :: rest) hg, cons_get_one]
      exact runAux_configs_head cb n _ 1 o2 rest ho2
    · rw [runAux_session_normal cb (n + 1) h b msgs (o2 :: rest)
        (by simpa using hg), cons_get_one]
      exact runAux_configs_head cb n _ (min (1 * 2) 30) o2 rest ho2
  · intro cb st tok htok
    simp [GeminiSession.receiverLoop, GeminiSession.processMsg, htok]
  · intro cb st tok
    simp [GeminiSession.receiverLoop, GeminiSession.processMsg]

/-- Closed witness for C4: a fresh run's first config has no token, and a
token recorded by one connection appears in the next connection's config. -/
theorem C4_witness :
    ((GeminiSession.run none [.connectFail sampleTransientError]).configs).head?
        = some none ∧
    ((GeminiSession.runAux none 2 none 1
        [.session [.resumptionUpdate "tok" true] false,
         .connectFail sampleTransientError]).configs).get? 1 = some (some "tok") := by
  constructor
  · exact C4_resumption_token_flow.1 none (.connectFail sampleTransientError) []
      (by decide)
  · have h := C4_resumption_token_flow.2.1 none 0 none 1
      [.resumptionUpdate "tok" true] (.connectFail sampleTransientError) []
      (by decide)
    rw [h]
    decide

/-- C5.  When a connection ends after a go-away notice (and stop was not
requested), the trace of the remaining attempts is appended with no sleep
in between — `run` reconnects immediately — whereas a transient connection
error always sleeps the current backoff `b` before its retry. -/
theorem C5_go_away_immediate_reconnect :
    (∀ (cb : Option ToolCB) (n : ℕ) (h : Option String) (b : ℚ)
        (msgs : List RecvMsg) (rest : List AttemptOutcome),
      (GeminiSession.receiverLoop cb (initRecvState h) msgs).go_away_received = true →
        GeminiSession.runAux cb (n + 1) h b (.session msgs false :: rest)
          = ⟨h :: (GeminiSession.runAux cb n
                (GeminiSession.receiverLoop cb (initRecvState h) msgs).resumption_handle
                1 rest).configs,
             (GeminiSession.runAux cb n
                (GeminiSession.receiverLoop cb (initRecvState h) msgs).resumption_handle
                1 rest).sleeps,
             (GeminiSession.runAux cb n
                (GeminiSession.receiverLoop cb (initRecvState h) msgs).resumption_handle
                1 rest).result⟩) ∧
    (∀ (cb : Option ToolCB) (n : ℕ) (h : Option String) (b : ℚ) (e : GError)
        (rest : List AttemptOutcome),
      GeminiSession.is_permanent_error e = false →
        ((GeminiSession.runAux cb (n + 1) h b
            (.connectFail e :: rest)).sleeps).head? = some b) := by
  constructor
  · intro cb n h b msgs rest hga
    exact runAux_session_goAway cb n h b msgs rest hga
  · intro cb n h b e rest htrans
    simp [GeminiSession.runAux, htrans]

/-- Closed witness for C5: after a go-away the whole one-attempt trace has
no sleep at all, even entered with backoff 5. -/
theorem C5_witness :
    GeminiSession.runAux none 1 none 5 [.session [.goAwayMsg] false]
      = ⟨[none], [], .ended⟩ := by
  have h := C5_go_away_immediate_reconnect.1 none 0 none 5 [.goAwayMsg] []
    (by decide)
  simpa [GeminiSession.runAux] using h

/-- C6.  Every tool call gets exactly one response, in call order, whose
result is the callback's string when it succeeds and the string
`"Error: <exception>"` when the callback raises; and a raising callback
does not abort the receiver loop — the loop continues over the remaining
messages with only the tool-response log extended. -/
theorem C6_tool_call_error_to_string :
    (∀ (cb : ToolCB) (calls : List FuncCall),
      GeminiSession.handle_tool_calls (some cb) calls
        = calls.map (fun fc =>
            (fc.1,
             match cb fc.1 fc.2 with
             | .ok r => r
             | .error e => "Error: " ++ e))) ∧
    (∀ (cb : ToolCB) (st : RecvState) (nm : String)
        (args : List (String × String)) (e : String) (rest : List RecvMsg),
      cb nm args = .error e →
        GeminiSession.receiverLoop (some cb) st (.toolCall [(nm, args)] :: rest)
          = GeminiSession.receiverLoop (some cb)
              { st with tool_responses := st.tool_responses ++ [(nm, "Error: " ++ e)] }
              rest) := by
  constructor
  · intro cb calls
    simp [GeminiSession.handle_tool_calls]
  · intro cb st nm args e rest hcb
    simp [GeminiSession.receiverLoop, GeminiSession.processMsg,
      GeminiSession.handle_tool_calls, hcb]

/-- Closed witness for C6: a callback that raises `"boom"` yields the
response `"Error: boom"` and the loop then processes a later
resumption-update message normally. -/
theorem C6_witness :
    GeminiSession.receiverLoop (some (fun _ _ => Except.error "boom"))
        (initRecvState none)
        [.toolCall [("move_head", [])], .resumptionUpdate "tok" true]
      = ⟨[], [("move_head", "Error: boom")], false, some "tok"⟩ := by
  have h := C6_tool_call_error_to_string.2 (fun _ _ => Except.error "boom")
    (initRecvState none) "move_head" [] "boom" [.resumptionUpdate "tok" true] rfl
  rw [h]
  decide

/-! ## Claim theorems for the silence detector -/

/-- The mean of squares is non-negative. -/
lemma meanSq_nonneg (xs : List ℚ) : 0 ≤ meanSq xs := by
  unfold meanSq
  apply div_nonneg
  · apply List.sum_nonneg
    intro x hx
    simp only [List.mem_map] at hx
    obtain ⟨y, _, rfl⟩ := hx
    exact mul_self_nonneg y
  · exact_mod_cast Nat.zero_le _

/-- The squared RMS is non-negative for both encodings. -/
lemma rmsSqVal_nonneg (a : AudioBlock) : 0 ≤ rmsSqVal a := by
  cases a with
  | int16 s => exact meanSq_nonneg _
  | float32 s => exact mul_nonneg (meanSq_nonneg _) (by positivity)

/-- C7.  The squared-form loudness test agrees with the code's real-valued
comparison `sqrt(mean-square) ≥ threshold` for both encodings; a loud block
records `now` as last-speech and returns false; a quiet block leaves the
last-speech time at its (possibly just-initialized) value and returns true
iff the elapsed silence reached the timeout, where a fresh detector
initializes last-speech to `now`; and on the spec's example (threshold 200,
timeout 2.0 s) silent blocks at t = 0 and t = 1 return false while a silent
block at t = 2.5 returns true. -/
theorem C7_silence_detector :
    (∀ (a : AudioBlock) (thr : ℚ),
      rmsAtLeast a thr = true ↔ (thr : ℝ) ≤ Real.sqrt ((rmsSqVal a : ℚ) : ℝ)) ∧
    (∀ (sd : SilenceDetector) (a : AudioBlock) (now : ℚ),
      rmsAtLeast a sd.rms_threshold = true →
        sd.process a now = (false, { sd with last_speech_time := some now })) ∧
    (∀ (sd : SilenceDetector) (a : AudioBlock) (now : ℚ),
      rmsAtLeast a sd.rms_threshold = false →
        (sd.process a now).1
          = decide (sd.timeout_sec ≤ now - sd.last_speech_time.getD now) ∧
        (sd.process a now).2.last_speech_time
          = some (sd.last_speech_time.getD now)) ∧
    (((SilenceDetector.mk 2 200 none).process (.int16 [0, 0, 0]) 0).1 = false ∧
     ((((SilenceDetector.mk 2 200 none).process (.int16 [0, 0, 0]) 0).2).process
        (.int16 [0, 0, 0]) 1).1 = false ∧
     (((((SilenceDetector.mk 2 200 none).process (.int16 [0, 0, 0]) 0).2).process
        (.int16 [0, 0, 0]) 1).2.process (.int16 [0, 0, 0]) (5 / 2)).1 = true) := by
  refine ⟨?_, ?_, ?_, ?_⟩
  · intro a thr
    have h0 : (0 : ℚ) ≤ rmsSqVal a := rmsSqVal_nonneg a
    constructor
    · intro hb
      have hb2 : thr ≤ 0 ∨ thr ^ 2 ≤ rmsSqVal a := by
        simpa [rmsAtLeast, Bool.or_eq_true, decide_eq_true_iff] using hb
      rcases hb2 with h | h
      · exact le_trans (by exact_mod_cast h) (Real.sqrt_nonneg _)
      · rcases le_or_lt thr 0 with h2 | h2
        · exact le_trans (by exact_mod_cast h2) (Real.sqrt_nonneg _)
        · rw [Real.le_sqrt' (by exact_mod_cast h2)]
          exact_mod_cast h
    · intro hr
      simp only [rmsAtLeast, Bool.or_eq_true, decide_eq_true_iff]
      rcases le_or_lt thr 0 with h2 | h2
      · exact Or.inl h2
      · refine Or.inr ?_
        have h3 := (Real.le_sqrt' (x := (thr : ℝ)) (by exact_mod_cast h2)).mp hr
        exact_mod_cast h3
  · intro sd a now hl
    simp [SilenceDetector.process, hl]
  · intro sd a now hq
    cases h : sd.last_speech_time <;>
      simp [SilenceDetector.process, hq, h, Option.getD] <;> split <;> simp_all
  · norm_num [SilenceDetector.process, rmsAtLeast, rmsSqVal, meanSq]

/-- Closed witness for C7: a loud block (RMS 300 with threshold 200)
records the call time and returns false; a quiet block on a fresh detector
returns false. -/
theorem C7_witness :
    (SilenceDetector.mk 2 200 none).process (.int16 [300]) 4
      = (false, SilenceDetector.mk 2 200 (some 4)) ∧
    ((SilenceDetector.mk 2 200 none).process (.int16 [0]) 4).1 = false := by
  constructor
  · exact C7_silence_detector.2.1 (SilenceDetector.mk 2 200 none) (.int16 [300]) 4
      (by norm_num [rmsAtLeast, rmsSqVal, meanSq, Bool.or_eq_true, decide_eq_true_iff])
  · have h := (C7_silence_detector.2.2.1 (SilenceDetector.mk 2 200 none)
      (.int16 [0]) 4
      (by norm_num [rmsAtLeast, rmsSqVal, meanSq, decide_eq_true_iff])).1
    rw [h]
    norm_num

/-! ## Claim theorem for the ACTIVE phase tail -/

/-- C8.  After the ACTIVE-phase task group ends, cost tracking is always
ended; when no shutdown was requested the orchestrator sends `MAX_DURATION`
to the state machine exactly when the elapsed time since session start
reached the max-duration cap and `SILENCE_TIMEOUT` otherwise; under a
shutdown request no event is sent. -/
theorem C8_active_tail_events :
    (∀ (shutdown : Bool) (now start cap : ℚ) (sm : StateMachine),
      (handleActiveTail shutdown now start cap sm).cost_ended = true) ∧
    (∀ (now start cap : ℚ) (sm : StateMachine),
      (handleActiveTail false now start cap sm).sent
        = some (if cap ≤ now - start then Event.MAX_DURATION
                else Event.SILENCE_TIMEOUT)) ∧
    (∀ (now start cap : ℚ) (sm : StateMachine),
      (handleActiveTail true now start cap sm).sent = none) := by
  refine ⟨?_, ?_, ?_⟩
  · intro shutdown now start cap sm
    cases shutdown with
    | true => rfl
    | false =>
        simp only [handleActiveTail, Bool.false_eq_true, if_false]
        cases hse : (sm.send_event
            (if cap ≤ now - start then Event.MAX_DURATION
             else Event.SILENCE_TIMEOUT) now).1 <;>
          simp [hse]
  · intro now start cap sm
    simp only [handleActiveTail, Bool.false_eq_true, if_false]
    cases hse : (sm.send_event
        (if cap ≤ now - start then Event.MAX_DURATION
         else Event.SILENCE_TIMEOUT) now).1 <;>
      simp [hse]
  · intro now start cap sm
    rfl

/-! ## Claim theorem for queue ordering -/

/-- The sender loop distributes over queue concatenation. -/
lemma senderLoop_append (l1 l2 : List SendItem) :
    senderLoop (l1 ++ l2) = senderLoop l1 ++ senderLoop l2 := by
  induction l1 with
  | nil => rfl
  | cons x t ih => cases x <;> simp [senderLoop, ih]

/-- The receiver appends exactly the non-empty inline audio payloads, in
arrival order, to the playback queue. -/
lemma receiverLoop_playback (cb : Option ToolCB) (st : RecvState)
    (msgs : List RecvMsg) :
    (GeminiSession.receiverLoop cb st msgs).playback
      = st.playback ++ playbackChunks msgs := by
  induction msgs generalizing st with
  | nil => simp [GeminiSession.receiverLoop, playbackChunks]
  | cons m rest ih =>
      have step : GeminiSession.receiverLoop cb st (m :: rest)
          = GeminiSession.receiverLoop cb (GeminiSession.processMsg cb st m) rest := rfl
      rw [step, ih]
      cases m <;>
        simp [GeminiSession.processMsg, playbackChunks] <;>
          split <;> simp

/-- C9.  FIFO order on both paths: enqueueing audio then an image yields
exactly those two transport messages, in that order, after whatever was
already queued; the sender loop forwards any queue as the order-preserving
per-item translation; the playback queue ends up holding the receiver's
chunks in arrival order; and the playback getter returns the front of the
queue, so a chunk appended later is drained after all earlier ones. -/
theorem C9_queue_fifo_order :
    (∀ (q : List SendItem) (a i : Bytes),
      senderLoop (send_image (send_audio q a) i)
        = senderLoop q ++ [.realtimeAudio a, .realtimeImage i]) ∧
    (∀ items : List SendItem,
      senderLoop items
        = items.map fun it =>
            match it with
            | .audioItem d => TransportMsg.realtimeAudio d
            | .imageItem d => TransportMsg.realtimeImage d) ∧
    (∀ (cb : Option ToolCB) (st : RecvState) (msgs : List RecvMsg),
      (GeminiSession.receiverLoop cb st msgs).playback
        = st.playback ++ playbackChunks msgs) ∧
    (∀ (c : Bytes) (rest : List Bytes),
      get_playback_audio (c :: rest) = some (c, rest)) ∧
    (∀ (q : List Bytes) (c : Bytes), drainAll (q ++ [c]) = drainAll q ++ [c]) := by
  refine ⟨?_, ?_, receiverLoop_playback, ?_, ?_⟩
  · intro q a i
    simp [send_audio, send_image, senderLoop_append, senderLoop]
  · intro items
    induction items with
    | nil => rfl
    | cons x t ih => cases x <;> simp [senderLoop, ih]
  · intro c rest
    rfl
  · intro q c
    induction q with
    | nil => rfl
    | cons x t ih => simp [drainAll, ih]

end Companion
